import Mathlib

/-!
A shallow embedding of the Tab Box background service worker
(reconciliation / resurrection engine syncing Chrome tab groups with
chrome.storage.local) together with proofs about the claims of its
specification.

Conventions of the embedding:
* JS numbers used as ids and as object keys are modelled as `Int`
  (closed tabs carry id `-1`).
* A JS object keyed by stringified numbers (`data.windows`,
  `win.groups`) is modelled as an association list `List (Int × α)`
  kept in ascending key order, which matches the iteration order of a
  JS object whose keys are all canonical integer strings.
* `a || b` on strings is `jsOr` (empty string is falsy).
* `chrome.*` calls are modelled against an explicit `Session` value;
  a failing `get` (absent entity) is a `none` lookup.
-/

namespace TabBox

/-- JS `a || b` for strings: the empty string is falsy. -/
def jsOr (a b : String) : String := if a = "" then b else a

/-- StorageTab from web/src/types.ts. -/
structure StorageTab where
  id : Int
  closed : Bool
  title : String
  url : String
deriving DecidableEq, Repr

/-- StorageGroup from web/src/types.ts (collapsed/position made total). -/
structure StorageGroup where
  id : Int
  closed : Bool
  title : String
  color : Option String
  windowId : Int
  collapsed : Bool
  position : Int
  tabs : List StorageTab
deriving DecidableEq, Repr

/-- StorageWindow from web/src/types.ts. -/
structure StorageWindow where
  id : Int
  closed : Bool
  name : Option String
  groups : List (Int × StorageGroup)
deriving DecidableEq, Repr

/-- StorageData from web/src/types.ts. -/
structure StorageData where
  windows : List (Int × StorageWindow)
deriving DecidableEq, Repr

/-- Lookup `obj[k]` on a modelled JS object. -/
def alGet {α : Type} (l : List (Int × α)) (k : Int) : Option α :=
  (l.find? (fun p => p.1 = k)).map (·.2)

/-- Assignment `obj[k] = v`: replace in place, or insert keeping the
ascending (JS numeric-key iteration) order. -/
def alSet {α : Type} : List (Int × α) → Int → α → List (Int × α)
  | [], k, v => [(k, v)]
  | (k', v') :: rest, k, v =>
    if k = k' then (k, v) :: rest
    else if k < k' then (k, v) :: (k', v') :: rest
    else (k', v') :: alSet rest k v

/-- `delete obj[k]`. -/
def alErase {α : Type} (l : List (Int × α)) (k : Int) : List (Int × α) :=
  l.filter (fun p => p.1 ≠ k)

/-- In-place mutation of `obj[k]` when present (first occurrence). -/
def alModify {α : Type} : List (Int × α) → Int → (α → α) → List (Int × α)
  | [], _, _ => []
  | (k', v) :: rest, k, f =>
    if k' = k then (k', f v) :: rest else (k', v) :: alModify rest k f

/-- A live Chrome tab as returned by `chrome.tabs.query`/`get`. -/
structure LiveTab where
  id : Int
  groupId : Int
  windowId : Int
  url : String
  title : String
deriving DecidableEq, Repr

/-- A live Chrome tab group as returned by `chrome.tabGroups.query`/`get`. -/
structure LiveGroup where
  id : Int
  windowId : Int
  title : String
  color : Option String
  collapsed : Bool
deriving DecidableEq, Repr

/-- The live Chrome session the worker talks to.  `windows` is the id
list from `chrome.windows.getAll`, `groups` the order of
`chrome.tabGroups.query`, `tabs` the order of `chrome.tabs.query`.
`nextId` feeds fresh ids for created windows/groups/tabs; `focused`
and `active` record the focus side effects of `update` calls. -/
structure Session where
  windows : List Int
  groups : List LiveGroup
  tabs : List LiveTab
  nextId : Int
  focused : Option Int
  active : Option Int
deriving DecidableEq, Repr

/-- `chrome.tabGroups.get(id)` (failure = `none`). -/
def Session.getGroup (s : Session) (id : Int) : Option LiveGroup :=
  s.groups.find? (fun g => g.id = id)

/-- `chrome.tabs.get(id)` (failure = `none`). -/
def Session.getTab (s : Session) (id : Int) : Option LiveTab :=
  s.tabs.find? (fun t => t.id = id)

/-- `chrome.tabGroups.query({ windowId })`. -/
def Session.groupsInWindow (s : Session) (w : Int) : List LiveGroup :=
  s.groups.filter (fun g => g.windowId = w)

/-- `chrome.tabs.query({ groupId })`. -/
def Session.tabsInGroup (s : Session) (g : Int) : List LiveTab :=
  s.tabs.filter (fun t => t.groupId = g)

/-- `chrome.windows.get(id)` succeeding. -/
def Session.hasWindow (s : Session) (w : Int) : Bool :=
  s.windows.contains w

/-- getStorage (part_009 lines 16-19): missing key yields the empty
document. The store contents are an `Option StorageData`. -/
def getStorage (store : Option StorageData) : StorageData :=
  store.getD { windows := [] }

/-- Result record of findStoredGroupById / findStoredGroupByTitle. -/
structure StoredGroupRef where
  group : StorageGroup
  windowId : Int
  groupKey : Int
deriving DecidableEq, Repr

/-- All group records of a document in iteration order, with their
window key and group key. -/
def allGroupRefs (d : StorageData) : List StoredGroupRef :=
  d.windows.flatMap (fun kw =>
    kw.2.groups.map (fun kg => ⟨kg.2, kw.1, kg.1⟩))

/-- findStoredGroupById: first record (in iteration order) whose `id`
equals `groupId`; the JS `if (!groupId) return null` guard is the
`groupId = 0` test (0 is the only falsy number reaching it). -/
def findStoredGroupById (d : StorageData) (groupId : Int) : Option StoredGroupRef :=
  if groupId = 0 then none
  else (allGroupRefs d).find? (fun r => r.group.id = groupId)

/-- The title-equal records of the document, in iteration order. -/
def titleHits (d : StorageData) (title : String) : List StoredGroupRef :=
  (allGroupRefs d).filter (fun r => r.group.title = title)

/-- findStoredGroupByTitle: the source loop returns the first
title-equal record in the preferred window if one exists (early
return), else the first title-equal record anywhere (the `match`
accumulator fallback).  `preferredWindowId &&` makes a 0 preference
inert. -/
def findStoredGroupByTitle (d : StorageData) (title : String)
    (preferredWindowId : Option Int := none) : Option StoredGroupRef :=
  match (titleHits d title).find? (fun r =>
      preferredWindowId = some r.windowId && r.windowId ≠ 0) with
  | some r => some r
  | none => (titleHits d title).head?

/-- mapTabsToStored (part_009 lines 144-151). -/
def mapTabsToStored (tabs : List LiveTab) : List StorageTab :=
  tabs.map (fun t =>
    { id := t.id, closed := false,
      title := jsOr t.title (jsOr t.url "Untitled"),
      url := jsOr t.url "" })

/-- Third pass of mergeStoredTabs: keep all open tabs; keep a closed
tab only if no open tab has its URL and no closed tab with that URL
was kept before (`seen` is the url set of `urlToClosedTab`). -/
def dedupClosed (openUrls : List String) : List StorageTab → List String → List StorageTab
  | [], _ => []
  | t :: rest, seen =>
    if !t.closed then t :: dedupClosed openUrls rest seen
    else if openUrls.contains t.url || seen.contains t.url then
      dedupClosed openUrls rest seen
    else t :: dedupClosed openUrls rest (t.url :: seen)

/-- `processedStoredIds` of mergeStoredTabs: the chrome tab ids that
were present in `storedTabsById` (the map of non-closed stored tabs). -/
def processedStoredIds (chromeTabs : List LiveTab) (storedTabs : List StorageTab) :
    List Int :=
  let openStoredIds := (storedTabs.filter (fun t => !t.closed)).map (·.id)
  (chromeTabs.map (·.id)).filter (fun i => openStoredIds.contains i)

/-- Second pass of mergeStoredTabs: stored tabs that are closed or were
not processed in the first pass are re-emitted as closed records. -/
def mergeSecondPass (chromeTabs : List LiveTab) (storedTabs : List StorageTab) :
    List StorageTab :=
  storedTabs.filterMap (fun st =>
    if st.closed || !((processedStoredIds chromeTabs storedTabs).contains st.id) then
      some { st with id := -1, closed := true }
    else none)

/-- The `result` list of mergeStoredTabs before deduplication: first
pass (every chrome tab, with current chrome data) then second pass. -/
def mergeResult (chromeTabs : List LiveTab) (storedTabs : List StorageTab) :
    List StorageTab :=
  mapTabsToStored chromeTabs ++ mergeSecondPass chromeTabs storedTabs

/-- `urlToOpenTab`'s key set: the urls of the open tabs of `result`. -/
def mergeOpenUrls (chromeTabs : List LiveTab) (storedTabs : List StorageTab) :
    List String :=
  ((mergeResult chromeTabs storedTabs).filter (fun t => !t.closed)).map (·.url)

/-- mergeStoredTabs (part_009 lines 156-231). -/
def mergeStoredTabs (chromeTabs : List LiveTab) (storedTabs : List StorageTab) :
    List StorageTab :=
  dedupClosed (mergeOpenUrls chromeTabs storedTabs)
    (mergeResult chromeTabs storedTabs) []

/-- Match result of findStoredWindowByGroups.  The source returns
`{ window, storedWindowId }` where `storedWindowId` is `parseInt(wId)`
of a `for...in` loop over the *filtered array* of unsynced windows —
i.e. the array index, not the storage key.  The embedding also records
`realKey`, the actual storage key of the matched entry, because the JS
rebind step afterwards shares the `groups` object between the new entry
and the entry still sitting at `realKey`. -/
structure WindowMatch where
  win : StorageWindow
  idx : Int
  realKey : Int
deriving DecidableEq, Repr

/-- findStoredWindowByGroups (part_009 lines 80-113).  `pickBest` is
the loop keeping the first candidate whose score strictly exceeds
every earlier one (`matches > 0 && (!bestMatch || matches >
bestMatch.score)`), so ties go to the first found. -/
def findStoredWindowByGroups (s : Session) (d : StorageData) (chromeWindowId : Int) :
    Option WindowMatch :=
  let chromeGroupTitles :=
    ((s.groupsInWindow chromeWindowId).map (fun g => g.title)).filter (· ≠ "")
  if chromeGroupTitles = [] then none
  else
    -- unsyncedWindows: stored windows not attached to live chrome windows
    let unsynced := d.windows.filter (fun kw => !(s.windows.contains kw.2.id))
    let scored := (List.range unsynced.length).zip unsynced |>.map
      (fun p => ((p.1 : Int), p.2.1,
        let storedGroupTitles :=
          (p.2.2.groups.map (fun kg => kg.2.title)).filter (· ≠ "")
        (p.2.2, (chromeGroupTitles.filter
          (fun t => storedGroupTitles.contains t)).length)))
    pickBest scored none
where
  /-- the loop keeping the first strictly-best-scoring candidate. -/
  pickBest : List (Int × Int × StorageWindow × Nat) →
      Option (WindowMatch × Nat) → Option WindowMatch
    | [], best => best.map (·.1)
    | (i, k, w, score) :: rest, best =>
      let improves : Bool :=
        decide (score > 0) &&
          (match best with
           | none => true
           | some b => decide (score > b.2))
      if improves then pickBest rest (some (⟨w, i, k⟩, score))
      else pickBest rest best

/-- moveStoredGroupToWindow (part_009 lines 129-141). -/
def moveStoredGroupToWindow (d : StorageData) (fromWindowId : Int)
    (groupKey : Int) (toWindowId : Int) : StorageData :=
  match alGet d.windows fromWindowId, alGet d.windows toWindowId with
  | some fromWindow, some _ =>
    match alGet fromWindow.groups groupKey with
    | some group =>
      -- toWindow.groups[groupKey] = group; delete fromWindow.groups[groupKey]
      let d1 : StorageData :=
        ⟨alModify d.windows toWindowId
          (fun w => { w with groups := alSet w.groups groupKey group })⟩
      ⟨alModify d1.windows fromWindowId
        (fun w => { w with groups := alErase w.groups groupKey })⟩
    | none => d
  | _, _ => d

/-- syncWindow (part_009 lines 374-424).  In the rebind branch the JS
spread copy shares the `groups` object with the entry still stored at
the old key, so the subsequent `g.windowId = windowId` loop updates
both; and `delete data.windows[oldWindowId]` uses the array index
returned by findStoredWindowByGroups, not the real key. -/
def syncWindow (s : Session) (windowId : Int) (d : StorageData) : StorageData :=
  match alGet d.windows windowId with
  | some w =>
    -- window already synced, just mark it open
    ⟨alSet d.windows windowId { w with closed := false }⟩
  | none =>
    match findStoredWindowByGroups s d windowId with
    | some m =>
      let updGroups := m.win.groups.map
        (fun kg => (kg.1, { kg.2 with windowId := windowId }))
      -- data.windows[windowId] = { ...storedWindow, id: windowId, closed: false }
      let ws1 := alSet d.windows windowId
        { m.win with id := windowId, closed := false, groups := updGroups }
      -- delete data.windows[oldWindowId]  (oldWindowId is the array index)
      let ws2 := alErase ws1 m.idx
      -- the groups' windowId mutation also reaches the aliased entry at realKey
      let ws3 := alModify ws2 m.realKey (fun w => { w with groups := updGroups })
      ⟨ws3⟩
    | none =>
      ⟨alSet d.windows windowId
        { id := windowId, closed := false, name := none, groups := [] }⟩

/-- Position-refresh loop of syncTabGroup (part_009 lines 508-522):
for every live group of the window, set `position` on the first stored
record carrying its live id. -/
def setFirstPositionById : List (Int × StorageGroup) → Int → Int →
    List (Int × StorageGroup)
  | [], _, _ => []
  | (k, g) :: rest, id, pos =>
    if g.id = id then (k, { g with position := pos }) :: rest
    else (k, g) :: setFirstPositionById rest id pos

/-- `updatePositions` block of syncTabGroup. -/
def updateAllPositions (chromeGroupsInWindow : List LiveGroup) (windowId : Int)
    (d : StorageData) : StorageData :=
  ⟨alModify d.windows windowId (fun w =>
    let gs' := chromeGroupsInWindow.foldl
      (fun gs cg =>
        let pos := chromeGroupsInWindow.findIdx (fun g => g.id = cg.id)
        setFirstPositionById gs cg.id (pos : Int))
      w.groups
    { w with groups := gs' })⟩

/-- syncTabGroup (part_009 lines 430-525).  `fuel` bounds the
self-recursive retry after creating a missing window (the JS retries
unboundedly; syncWindow establishes the entry, so one unit of fuel per
retry is the exact behaviour on every run in which the JS terminates). -/
def syncTabGroup (s : Session) : Nat → Int → Option Int → Bool →
    StorageData → StorageData
  | fuel, groupId, windowId?, updatePositions, d =>
    match s.getGroup groupId with
    | none => d
    | some group =>
      let tabs := s.tabsInGroup groupId
      match windowId? with
      | none =>
        -- windowId null: remove the group from its stored window... but the
        -- source first overwrites stored.windowId with -1 and then deletes
        -- data.windows[stored.windowId]?.groups[stored.groupKey], so the
        -- delete targets windows[-1].
        match findStoredGroupById d groupId with
        | some stored =>
          ⟨alModify d.windows (-1)
            (fun w => { w with groups := alErase w.groups stored.groupKey })⟩
        | none => d
      | some windowId =>
        if (alGet d.windows windowId).isNone then
          match fuel with
          | 0 => d
          | fuel' + 1 =>
            syncTabGroup s fuel' groupId (some windowId) updatePositions
              (syncWindow s windowId d)
        else
          let stored :=
            match findStoredGroupById d groupId with
            | some r => some r
            | none => findStoredGroupByTitle d (jsOr group.title "") (some windowId)
          let mergedTabs :=
            match stored with
            | some r => mergeStoredTabs tabs r.group.tabs
            | none => mapTabsToStored tabs
          let chromeGroupsInWindow := s.groupsInWindow windowId
          let indexInWindow := chromeGroupsInWindow.findIdx? (fun g => g.id = groupId)
          let groupPosition : Int :=
            match indexInWindow with
            | some i => (i : Int)
            | none => (stored.map (fun r => r.group.position)).getD 0
          let groupData : StorageGroup :=
            { id := groupId, closed := false,
              title := jsOr group.title "",
              color := group.color,
              windowId := windowId,
              collapsed := group.collapsed,
              position := groupPosition,
              tabs := mergedTabs }
          let d1 : StorageData :=
            match stored with
            | some r =>
              -- Object.assign(stored.group, groupData), then move if needed
              let d' : StorageData :=
                ⟨alModify d.windows r.windowId (fun w =>
                  { w with groups := alSet w.groups r.groupKey groupData })⟩
              if r.windowId ≠ windowId then
                moveStoredGroupToWindow d' r.windowId r.groupKey windowId
              else d'
            | none =>
              ⟨alModify d.windows windowId (fun w =>
                { w with groups := alSet w.groups groupId groupData })⟩
          if updatePositions then
            updateAllPositions chromeGroupsInWindow windowId d1
          else d1

/-- Sweep phase of reconcileAllWindows (part_009 lines 252-280). -/
def markClosedSweep (s : Session) (d : StorageData) : StorageData :=
  ⟨d.windows.map (fun kw =>
    let w := kw.2
    if !w.closed then
      if s.hasWindow w.id then
        let gs' := w.groups.map (fun kg =>
          if !kg.2.closed && (s.getGroup kg.2.id).isNone then
            (kg.1, { kg.2 with closed := true })
          else kg)
        (kw.1, { w with groups := gs' })
      else
        let gs' := w.groups.map (fun kg => (kg.1, { kg.2 with closed := true }))
        (kw.1, { w with closed := true, groups := gs' })
    else kw)⟩

/-- Cleanup phase of reconcileAllWindows (part_009 lines 283-288). -/
def cleanupEmptyWindows (d : StorageData) : StorageData :=
  ⟨d.windows.filter (fun kw => kw.2.groups ≠ [])⟩

/-- reconcileAllWindows (part_009 lines 235-291): sync every live
window, then every live group (with position refresh), then sweep
closed markers and prune empty windows. -/
def reconcileAllWindows (s : Session) (d : StorageData) : StorageData :=
  let d1 := s.windows.foldl (fun acc w => syncWindow s w acc) d
  let d2 := s.groups.foldl
    (fun acc g => syncTabGroup s 2 g.id (some g.windowId) true acc) d1
  cleanupEmptyWindows (markClosedSweep s d2)

/-- `chrome.windows.create({})`. -/
def Session.createWindow (s : Session) : Int × Session :=
  (s.nextId, { s with windows := s.windows ++ [s.nextId], nextId := s.nextId + 1 })

/-- `chrome.tabs.create({ windowId, url })`; the freshly created tab
has no settled title yet. -/
def Session.createTab (s : Session) (windowId : Int) (url : String) :
    LiveTab × Session :=
  let t : LiveTab :=
    { id := s.nextId, groupId := -1, windowId := windowId, url := url, title := "" }
  (t, { s with tabs := s.tabs ++ [t], nextId := s.nextId + 1 })

/-- `chrome.tabs.group({ tabIds, createProperties: { windowId } })`:
makes a fresh group and moves the listed tabs into it. -/
def Session.groupTabsNew (s : Session) (tabIds : List Int) (windowId : Int) :
    Int × Session :=
  let gid := s.nextId
  let g : LiveGroup :=
    { id := gid, windowId := windowId, title := "", color := none, collapsed := false }
  let tabs' := s.tabs.map (fun t =>
    if tabIds.contains t.id then { t with groupId := gid, windowId := windowId }
    else t)
  (gid,
    { s with
      nextId := s.nextId + 1,
      groups := s.groups ++ [g],
      tabs := tabs' })

/-- `chrome.tabs.group({ tabIds, groupId })`: join an existing group. -/
def Session.groupTabsInto (s : Session) (tabIds : List Int) (groupId : Int) :
    Session :=
  { s with tabs := s.tabs.map (fun t =>
      if tabIds.contains t.id then { t with groupId := groupId } else t) }

/-- `chrome.tabGroups.update(id, { title, color: c || undefined })`:
an absent color leaves the live color unchanged. -/
def Session.updateGroup (s : Session) (groupId : Int) (title : String)
    (color : Option String) : Session :=
  { s with groups := s.groups.map (fun g =>
      if g.id = groupId then
        let c := match color with | some c => some c | none => g.color
        { g with title := title, color := c }
      else g) }

/-- `chrome.tabs.remove(id)`. -/
def Session.removeTab (s : Session) (id : Int) : Session :=
  { s with tabs := s.tabs.filter (fun t => t.id ≠ id) }

/-- `chrome.windows.update(id, { focused: true })`. -/
def Session.focusWindow (s : Session) (w : Int) : Session :=
  { s with focused := some w }

/-- `chrome.tabs.update(id, { active: true })`. -/
def Session.activateTab (s : Session) (id : Int) : Session :=
  { s with active := some id }

/-- Result of focusOrOpenWindow. -/
structure WindowOpenResult where
  windowId : Int
  sess : Session
  doc : StorageData
deriving DecidableEq, Repr

/-- focusOrOpenWindow (part_009 lines 532-605) with `restoreTabs =
false`, the default used by focusOrOpenGroup and focusOrOpenTab.
`if (window.id)` is truthy for every nonzero number; a stale id makes
`chrome.windows.get` throw, falling through to creation. -/
def focusOrOpenWindow (window : StorageWindow) (s : Session) (d : StorageData) :
    WindowOpenResult :=
  if window.id ≠ 0 && s.hasWindow window.id then
    ⟨window.id, s.focusWindow window.id, d⟩
  else
    let p := s.createWindow
    let newId := p.1
    let oldId := window.id
    -- find this window in storage by old id (parseInt(wId) === oldId)
    let d' : StorageData :=
      match alGet d.windows oldId with
      | some storedWindow =>
        let gs' := storedWindow.groups.map
          (fun kg => (kg.1, { kg.2 with windowId := newId }))
        let sw : StorageWindow :=
          { storedWindow with id := newId, closed := false, groups := gs' }
        let ws1 := alSet d.windows oldId sw
        if oldId ≠ newId then ⟨alErase (alSet ws1 newId sw) oldId⟩ else ⟨ws1⟩
      | none => d
    ⟨newId, p.2.focusWindow newId, d'⟩

/-- The tab-creation loop of focusOrOpenGroup (lines 627-636),
returning `createdTabIds` and the updated session. -/
def createTabsLoop (s : Session) (windowId : Int) (tabs : List StorageTab) :
    List Int × Session :=
  tabs.foldl
    (fun acc t =>
      let p := acc.2.createTab windowId t.url
      (acc.1 ++ [p.1.id], p.2))
    (([] : List Int), s)

/-- Identity rebinding of the resurrected tabs (lines 676-684): walk
`group.tabs`, giving each non-closed record the next created live id;
records that were skipped stay closed with id -1. -/
def rebindResurrectedTabs : List StorageTab → List Int → List StorageTab
  | [], _ => []
  | t :: rest, created =>
    if !t.closed then
      match created with
      | c :: cs => { t with id := c } :: rebindResurrectedTabs rest cs
      | [] => { t with id := -1, closed := true } :: rebindResurrectedTabs rest []
    else { t with id := -1, closed := true } :: rebindResurrectedTabs rest created

/-- Result of focusOrOpenGroup; `created` is the local
`createdTabIds` of the source. -/
structure GroupOpenResult where
  groupId : Int
  sess : Session
  doc : StorageData
  created : List Int
deriving DecidableEq, Repr

/-- focusOrOpenGroup (part_009 lines 607-707). -/
def focusOrOpenGroup (group : StorageGroup) (window : StorageWindow)
    (s : Session) (d : StorageData) : GroupOpenResult :=
  match (if group.id ≠ 0 then s.getGroup group.id else none) with
  | some chromeGroup =>
    -- live group found: focus its window and first tab
    let tabs := s.tabsInGroup chromeGroup.id
    let s1 := s.focusWindow chromeGroup.windowId
    let s2 := match tabs.head? with
      | some t => s1.activateTab t.id
      | none => s1
    ⟨chromeGroup.id, s2, d, []⟩
  | none =>
    let wres := focusOrOpenWindow window s d
    let windowId := wres.windowId
    let tabsToCreate := group.tabs.filter (fun t => !t.closed)
    let cp := createTabsLoop wres.sess windowId tabsToCreate
    let createdTabIds := cp.1
    let gp :=
      if createdTabIds ≠ [] then
        let q := cp.2.groupTabsNew createdTabIds windowId
        let s4 := q.2.updateGroup q.1 group.title group.color
        let s5 := match createdTabIds.head? with
          | some c => s4.activateTab c
          | none => s4
        (q.1, s5)
      else
        -- empty group: throwaway tab, group it, then remove it
        let tp := cp.2.createTab windowId ""
        let q := tp.2.groupTabsNew [tp.1.id] windowId
        let s4 := q.2.updateGroup q.1 group.title group.color
        (q.1, s4.removeTab tp.1.id)
    let newGroupId := gp.1
    let d2 := wres.doc
    let stored :=
      match findStoredGroupById d2 group.id with
      | some r => some r
      | none => findStoredGroupByTitle d2 group.title none
    match stored with
    | some r =>
      let newTabs := rebindResurrectedTabs group.tabs createdTabIds
      let g' : StorageGroup :=
        { r.group with id := newGroupId, windowId := windowId, tabs := newTabs }
      let d3 : StorageData :=
        ⟨alModify d2.windows r.windowId
          (fun w => { w with groups := alSet w.groups r.groupKey g' })⟩
      let d4 : StorageData :=
        if r.windowId ≠ windowId then
          let dm := moveStoredGroupToWindow d3 r.windowId r.groupKey windowId
          match alGet dm.windows windowId with
          | some _ =>
            ⟨alModify dm.windows windowId (fun w =>
              { w with groups := alErase (alSet w.groups newGroupId g') r.groupKey })⟩
          | none => dm
        else
          if r.groupKey ≠ newGroupId then
            match alGet d3.windows windowId with
            | some _ =>
              ⟨alModify d3.windows windowId (fun w =>
                { w with groups := alErase (alSet w.groups newGroupId g') r.groupKey })⟩
            | none => d3
          else d3
      ⟨newGroupId, gp.2, d4, createdTabIds⟩
    | none => ⟨newGroupId, gp.2, d2, createdTabIds⟩

/-- Stored-tab rebinding of focusOrOpenTab (lines 745-758): update the
first record with the requested url, or push a fresh record. -/
def upsertStoredTabByUrl : List StorageTab → String → Int → String → String →
    List StorageTab
  | [], _, nid, ntitle, nurl => [⟨nid, false, ntitle, nurl⟩]
  | t :: rest, url, nid, ntitle, nurl =>
    if t.url = url then { t with id := nid, closed := false, title := ntitle } :: rest
    else t :: upsertStoredTabByUrl rest url nid ntitle nurl

/-- Result of focusOrOpenTab. -/
structure TabOpenResult where
  tabId : Int
  sess : Session
  doc : StorageData
deriving DecidableEq, Repr

/-- focusOrOpenTab (part_009 lines 709-763). -/
def focusOrOpenTab (tab : StorageTab) (group : StorageGroup)
    (window : StorageWindow) (s : Session) (d : StorageData) : TabOpenResult :=
  match (if tab.id ≠ 0 then s.getTab tab.id else none) with
  | some chromeTab =>
    ⟨chromeTab.id, (s.focusWindow chromeTab.windowId).activateTab chromeTab.id, d⟩
  | none =>
    let gres := focusOrOpenGroup group window s d
    let groupId := gres.groupId
    -- chrome.tabs.query({ groupId, url: tab.url })
    let existingTabs := gres.sess.tabs.filter
      (fun t => t.groupId = groupId && t.url = tab.url)
    match existingTabs.head? with
    | some e => ⟨e.id, gres.sess.activateTab e.id, gres.doc⟩
    | none =>
      let groupWindowId := ((gres.sess.getGroup groupId).map (·.windowId)).getD 0
      let p := gres.sess.createTab groupWindowId tab.url
      let newTab := p.1
      let s1 := (p.2.activateTab newTab.id).groupTabsInto [newTab.id] groupId
      let newTitle := jsOr newTab.title (jsOr newTab.url "Untitled")
      let d3 : StorageData :=
        match findStoredGroupById gres.doc groupId with
        | some r =>
          ⟨alModify gres.doc.windows r.windowId (fun w =>
            let gs' := alModify w.groups r.groupKey (fun g =>
              let tabs' := upsertStoredTabByUrl g.tabs tab.url newTab.id
                newTitle (jsOr newTab.url "")
              { g with tabs := tabs' })
            { w with groups := gs' })⟩
        | none => gres.doc
      ⟨newTab.id, s1, d3⟩

/-- A unit of work enqueued on the event queue: its identity and
whether its body throws. -/
structure EvUnit where
  uid : Int
  fails : Bool
deriving DecidableEq, Repr

/-- Observable execution events of the queue worker: a unit beginning,
and a unit finishing (`ok = false` when its body threw and the error
was logged). -/
inductive QEv where
  | begun (uid : Int)
  | done (uid : Int) (ok : Bool)
deriving DecidableEq, Repr

/-- State of the event-serialization machinery (part_009 lines
1026-1048): chrome events not yet fired, the in-memory `eventQueue`,
the `processingQueue` flag, and the execution trace so far. -/
structure QState where
  arrivals : List EvUnit
  queued : List EvUnit
  processing : Bool
  trace : List QEv
deriving DecidableEq, Repr

/-- The trace of a strictly FIFO, run-to-completion execution. -/
def fifoTrace (us : List EvUnit) : List QEv :=
  us.flatMap (fun u => [QEv.begun u.uid, QEv.done u.uid (!u.fails)])

/-- One scheduler step.  `true`: the next chrome event fires, calling
`queue(fn)` — push onto `eventQueue`, then enter `processEventQueue`,
which returns at once when `processingQueue` is already set.  `false`:
the active drain performs one `while` iteration — shift the head unit
and run it to completion (`try await eventFn()` with errors logged),
or clear `processingQueue` when the queue is empty. -/
def qstep (choice : Bool) (st : QState) : QState :=
  if choice then
    match st.arrivals with
    | [] => st
    | u :: rest =>
      let st' : QState := { st with arrivals := rest, queued := st.queued ++ [u] }
      if st'.processing then st' else { st' with processing := true }
  else
    if st.processing then
      match st.queued with
      | [] => { st with processing := false }
      | u :: rest =>
        { st with
          queued := rest,
          trace := st.trace ++ [QEv.begun u.uid, QEv.done u.uid (!u.fails)] }
    else st

/-- Run the queue under an arbitrary interleaving of event arrivals
and drain iterations. -/
def qrun (sched : List Bool) (st : QState) : QState :=
  sched.foldl (fun s c => qstep c s) st

/-- Response of the `getStorage` message branch (part_009 lines
781-783). -/
structure GetStorageResponse where
  ok : Bool
  data : StorageData
deriving DecidableEq, Repr

/-- The `chrome.runtime.onMessage` branch answering a `getStorage`
request: look the document up and respond with it. -/
def handleGetStorageMessage (store : Option StorageData) : GetStorageResponse :=
  { ok := true, data := getStorage store }

/-! ### Concrete instances used by the claim theorems -/

/-- A document holding one closed window (old id 5) with two closed
groups: "W" (old live id 99, one closed tab) and "P" (old live id 98). -/
def docWpair : StorageData :=
  ⟨[(5, ⟨5, true, none,
      [(30, ⟨99, true, "W", none, 5, false, 0, [⟨-1, true, "w", "w.c"⟩]⟩),
       (31, ⟨98, true, "P", none, 5, false, 1, []⟩)]⟩)]⟩

/-- A live session with two windows: window 10 holds group 7 titled
"P"; window 20 holds group 99 titled "D".  The live group id 99
coincides with the stale stored id of the closed "W" group. -/
def sessWpair : Session :=
  { windows := [10, 20],
    groups := [⟨7, 10, "P", none, false⟩, ⟨99, 20, "D", none, false⟩],
    tabs := [⟨70, 7, 10, "p.c", "P1"⟩, ⟨71, 99, 20, "d.c", "D1"⟩],
    nextId := 1000, focused := none, active := none }

/-- A document with one closed window (key 5) whose stored groups are
titled "Work" and "Docs". -/
def docWorkDocs : StorageData :=
  ⟨[(5, ⟨5, true, none,
      [(6, ⟨96, true, "Work", none, 5, false, 0, []⟩),
       (7, ⟨97, true, "Docs", none, 5, false, 1, []⟩)]⟩)]⟩

/-- A live session with one fresh window 10 whose live groups are
titled "Work", "Docs" and "Extra". -/
def sessWorkDocsExtra : Session :=
  { windows := [10],
    groups := [⟨101, 10, "Work", none, false⟩, ⟨102, 10, "Docs", none, false⟩,
               ⟨103, 10, "Extra", none, false⟩],
    tabs := [], nextId := 1000, focused := none, active := none }

/-- A document whose only "Work"-titled group record lives under
window 1; window 2 has no group records. -/
def docWorkElsewhere : StorageData :=
  ⟨[(1, ⟨1, true, none, [(5, ⟨99, true, "Work", none, 1, false, 0, []⟩)]⟩),
    (2, ⟨2, false, none, []⟩)]⟩

/-- A live session where window 2 is open and holds live group 7
titled "Work" (window 1 is closed). -/
def sessWorkInTwo : Session :=
  { windows := [2], groups := [⟨7, 2, "Work", none, false⟩], tabs := [],
    nextId := 1000, focused := none, active := none }

/-- A document with window 1 holding the record of live group 7. -/
def docGroupInOne : StorageData :=
  ⟨[(1, ⟨1, false, none, [(7, ⟨7, false, "G", none, 1, false, 0, []⟩)]⟩)]⟩

/-- A live session where group 7 is live in window 1. -/
def sessGroupLive : Session :=
  { windows := [1], groups := [⟨7, 1, "G", none, false⟩], tabs := [],
    nextId := 1000, focused := none, active := none }

/-- A document where the record of group 7 (key 40) sits under window
1, and window 2 exists; the live group has moved to window 2. -/
def docBeforeMove : StorageData :=
  ⟨[(1, ⟨1, false, none, [(40, ⟨7, false, "G", none, 1, false, 0, []⟩)]⟩),
    (2, ⟨2, false, none, []⟩)]⟩

/-- A live session where group 7 now lives in window 2. -/
def sessAfterMove : Session :=
  { windows := [1, 2], groups := [⟨7, 2, "G", none, false⟩], tabs := [],
    nextId := 1000, focused := none, active := none }

/-- A fully closed group record with one open tab (url "x.c") and one
closed history tab (url "y.c"); its stored live id 55 is stale. -/
def resurrectGroupRec : StorageGroup :=
  ⟨55, false, "T", none, 9, false, 0,
    [⟨60, false, "X", "x.c"⟩, ⟨-1, true, "Y", "y.c"⟩]⟩

/-- The closed window record owning `resurrectGroupRec` under key 9. -/
def resurrectWindowRec : StorageWindow := ⟨9, true, none, [(55, resurrectGroupRec)]⟩

/-- Document for the resurrection scenario. -/
def resurrectDoc : StorageData := ⟨[(9, resurrectWindowRec)]⟩

/-- A session where nothing is live (fresh browser). -/
def sessEmpty : Session :=
  { windows := [], groups := [], tabs := [], nextId := 100,
    focused := none, active := none }

/-- A group record bound to live group 12 whose stored tab record
still carries the stale id 77 for url "x.c". -/
def dupGroupRec : StorageGroup :=
  ⟨12, false, "T", none, 9, false, 0, [⟨77, false, "X", "x.c"⟩]⟩

/-- The open window record owning `dupGroupRec`. -/
def dupWindowRec : StorageWindow := ⟨9, false, none, [(12, dupGroupRec)]⟩

/-- Document for the duplicate-tab scenario. -/
def dupDoc : StorageData := ⟨[(9, dupWindowRec)]⟩

/-- A session where group 12 is live in window 9 and already contains
a live tab (id 42) with url "x.c". -/
def sessDupTab : Session :=
  { windows := [9], groups := [⟨12, 9, "T", none, false⟩],
    tabs := [⟨42, 12, 9, "x.c", "X"⟩], nextId := 100,
    focused := none, active := none }

/-! ### Association-list lemmas -/

theorem alGet_nil {α : Type} (k : Int) : alGet ([] : List (Int × α)) k = none := rfl

theorem alGet_cons {α : Type} (k k' : Int) (v : α) (l : List (Int × α)) :
    alGet ((k', v) :: l) k = if k' = k then some v else alGet l k := by
  by_cases h : k' = k <;> simp [alGet, List.find?, h]

theorem alGet_alSet {α : Type} (l : List (Int × α)) (k k' : Int) (v : α) :
    alGet (alSet l k v) k' = if k' = k then some v else alGet l k' := by
  induction l with
  | nil =>
    simp only [alSet]
    rw [alGet_cons]
    by_cases h : k' = k
    · rw [if_pos (Eq.symm h), if_pos h]
    · rw [if_neg (fun hh => h (Eq.symm hh)), if_neg h]
  | cons p t ih =>
    obtain ⟨k₁, v₁⟩ := p
    by_cases h1 : k = k₁
    · subst h1
      rw [show alSet ((k, v₁) :: t) k v = (k, v) :: t by simp [alSet]]
      rw [alGet_cons]
      by_cases h : k' = k
      · rw [if_pos (Eq.symm h), if_pos h]
      · rw [if_neg (fun hh => h (Eq.symm hh)), if_neg h, alGet_cons,
          if_neg (fun hh => h (Eq.symm hh))]
    · by_cases h2 : k < k₁
      · simp only [alSet, if_neg h1, if_pos h2]
        rw [alGet_cons]
        by_cases h : k' = k
        · rw [if_pos (Eq.symm h), if_pos h]
        · rw [if_neg (fun hh => h (Eq.symm hh)), if_neg h]
      · simp only [alSet, if_neg h1, if_neg h2]
        rw [alGet_cons, ih]
        by_cases h : k' = k
        · have h3 : ¬ k₁ = k' := fun hh => h1 (by rw [hh, h])
          rw [if_neg h3, if_pos h, if_pos h]
        · by_cases hk : k₁ = k'
          · rw [if_pos hk, if_neg h, alGet_cons, if_pos hk]
          · rw [if_neg hk, if_neg h, if_neg h, alGet_cons, if_neg hk]

theorem alErase_cons_self {α : Type} (k : Int) (v : α) (t : List (Int × α)) :
    alErase ((k, v) :: t) k = alErase t k := by
  simp [alErase, List.filter_cons]

theorem alErase_cons_ne {α : Type} {k₁ k : Int} (v : α) (t : List (Int × α))
    (h : k₁ ≠ k) : alErase ((k₁, v) :: t) k = (k₁, v) :: alErase t k := by
  simp [alErase, List.filter_cons, h]

theorem alGet_alErase {α : Type} (l : List (Int × α)) (k k' : Int) :
    alGet (alErase l k) k' = if k' = k then none else alGet l k' := by
  induction l with
  | nil =>
    by_cases h : k' = k
    · rw [if_pos h]; rfl
    · rw [if_neg h]; rfl
  | cons p t ih =>
    obtain ⟨k₁, v₁⟩ := p
    by_cases h1 : k₁ = k
    · subst h1
      rw [alErase_cons_self, ih]
      by_cases h : k' = k₁
      · rw [if_pos h, if_pos h]
      · rw [if_neg h, if_neg h, alGet_cons, if_neg (fun hh => h (Eq.symm hh))]
    · rw [alErase_cons_ne _ _ h1, alGet_cons]
      by_cases hk : k₁ = k'
      · have h2 : ¬ k' = k := fun hh => h1 (hk.trans hh)
        rw [if_pos hk, if_neg h2, alGet_cons, if_pos hk]
      · rw [if_neg hk, ih]
        by_cases h : k' = k
        · rw [if_pos h, if_pos h]
        · rw [if_neg h, if_neg h, alGet_cons, if_neg hk]

theorem alGet_alModify {α : Type} (l : List (Int × α)) (k k' : Int) (f : α → α) :
    alGet (alModify l k f) k' =
      if k' = k then (alGet l k).map f else alGet l k' := by
  induction l with
  | nil =>
    by_cases h : k' = k
    · rw [if_pos h]; rfl
    · rw [if_neg h]; rfl
  | cons p t ih =>
    obtain ⟨k₁, v₁⟩ := p
    by_cases h1 : k₁ = k
    · subst h1
      rw [show alModify ((k₁, v₁) :: t) k₁ f = (k₁, f v₁) :: t by simp [alModify]]
      rw [alGet_cons, alGet_cons]
      by_cases h : k' = k₁
      · rw [if_pos (Eq.symm h), if_pos h]
        simp
      · rw [if_neg (fun hh => h (Eq.symm hh)), if_neg h, alGet_cons,
          if_neg (fun hh => h (Eq.symm hh))]
    · rw [show alModify ((k₁, v₁) :: t) k f = (k₁, v₁) :: alModify t k f by
        simp [alModify, h1]]
      rw [alGet_cons, ih]
      by_cases hk : k₁ = k'
      · have h2 : ¬ k' = k := fun hh => h1 (hk.trans hh)
        rw [if_pos hk, if_neg h2, alGet_cons, if_pos hk]
      · rw [if_neg hk]
        by_cases h : k' = k
        · rw [if_pos h, if_pos h, alGet_cons, if_neg h1]
        · rw [if_neg h, if_neg h, alGet_cons, if_neg hk]

theorem alGet_isSome_iff {α : Type} (l : List (Int × α)) (k : Int) :
    (alGet l k).isSome = true ↔ k ∈ l.map Prod.fst := by
  induction l with
  | nil => simp [alGet_nil]
  | cons p t ih =>
    obtain ⟨k₁, v₁⟩ := p
    by_cases h : k₁ = k
    · subst h
      simp [alGet_cons]
    · have h2 : ¬ k = k₁ := fun hh => h (Eq.symm hh)
      simp [alGet_cons, h, h2, ih]

theorem alGet_some_mem {α : Type} {l : List (Int × α)} {k : Int} {v : α}
    (h : alGet l k = some v) : (k, v) ∈ l := by
  unfold alGet at h
  cases hf : l.find? (fun p => p.1 = k) with
  | none => rw [hf] at h; cases h
  | some p =>
    rw [hf] at h
    cases h
    have hm := List.mem_of_find?_eq_some hf
    have hp : p.1 = k := by simpa using List.find?_some hf
    rw [← hp]
    exact hm

theorem alGet_of_mem_nodup {α : Type} {l : List (Int × α)} {k : Int} {v : α}
    (hmem : (k, v) ∈ l) (hnd : (l.map Prod.fst).Nodup) : alGet l k = some v := by
  induction l with
  | nil => cases hmem
  | cons p t ih =>
    obtain ⟨k₁, v₁⟩ := p
    simp only [List.map_cons, List.nodup_cons] at hnd
    rcases List.mem_cons.mp hmem with h | h
    · cases h
      simp [alGet_cons]
    · have hk : k₁ ≠ k := by
        intro hh
        subst hh
        exact hnd.1 (List.mem_map.mpr ⟨(k₁, v), h, rfl⟩)
      simp [alGet_cons, hk, ih h hnd.2]

/-! ### Tab History Merger: facts for the merge-dedup claim -/

theorem mapTabsToStored_closed (ct : List LiveTab) :
    ∀ t ∈ mapTabsToStored ct, t.closed = false := by
  intro t ht
  rcases List.mem_map.mp ht with ⟨lt, _, rfl⟩
  rfl

theorem dedupClosed_cons_open {ou : List String} {t : StorageTab}
    (rest : List StorageTab) (seen : List String) (hc : t.closed = false) :
    dedupClosed ou (t :: rest) seen = t :: dedupClosed ou rest seen := by
  simp only [dedupClosed]
  rw [if_pos (by rw [hc]; rfl)]

theorem dedupClosed_cons_skip {ou : List String} {t : StorageTab}
    (rest : List StorageTab) (seen : List String) (hc : t.closed = true)
    (hs : (ou.contains t.url || seen.contains t.url) = true) :
    dedupClosed ou (t :: rest) seen = dedupClosed ou rest seen := by
  simp only [dedupClosed]
  rw [if_neg (by rw [hc]; exact Bool.false_ne_true), if_pos hs]

theorem dedupClosed_cons_keep {ou : List String} {t : StorageTab}
    (rest : List StorageTab) (seen : List String) (hc : t.closed = true)
    (hs : ¬ (ou.contains t.url || seen.contains t.url) = true) :
    dedupClosed ou (t :: rest) seen = t :: dedupClosed ou rest (t.url :: seen) := by
  simp only [dedupClosed]
  rw [if_neg (by rw [hc]; exact Bool.false_ne_true), if_neg hs]

theorem dedupClosed_filter_open (ou : List String) (l : List StorageTab)
    (seen : List String) :
    (dedupClosed ou l seen).filter (fun t => !t.closed) =
      l.filter (fun t => !t.closed) := by
  induction l generalizing seen with
  | nil => rfl
  | cons t rest ih =>
    by_cases hc : t.closed = true
    · by_cases hs : (ou.contains t.url || seen.contains t.url) = true
      · rw [dedupClosed_cons_skip rest seen hc hs, ih, List.filter_cons,
          if_neg (by rw [hc]; exact Bool.false_ne_true)]
      · rw [dedupClosed_cons_keep rest seen hc hs, List.filter_cons,
          if_neg (by rw [hc]; exact Bool.false_ne_true), ih, List.filter_cons,
          if_neg (by rw [hc]; exact Bool.false_ne_true)]
    · have hc' : t.closed = false := Bool.eq_false_iff.mpr hc
      rw [dedupClosed_cons_open rest seen hc', List.filter_cons,
        if_pos (by rw [hc']; rfl), ih, List.filter_cons,
        if_pos (by rw [hc']; rfl)]

/-- The closed survivors of the dedup pass have pairwise-distinct URLs,
none of which is an open URL or a previously seen URL. -/
theorem dedupClosed_closed_urls (ou : List String) (l : List StorageTab) :
    ∀ seen : List String,
      (((dedupClosed ou l seen).filter (fun t => t.closed)).map
          (fun t => t.url)).Nodup ∧
        ∀ u ∈ ((dedupClosed ou l seen).filter (fun t => t.closed)).map
            (fun t => t.url), u ∉ ou ∧ u ∉ seen := by
  induction l with
  | nil => intro seen; simp [dedupClosed]
  | cons t rest ih =>
    intro seen
    by_cases hc : t.closed = true
    · by_cases hs : (ou.contains t.url || seen.contains t.url) = true
      · rw [dedupClosed_cons_skip rest seen hc hs]
        exact ih seen
      · have hou : t.url ∉ ou := by
          intro hm
          exact hs (by simp [hm])
        have hseen : t.url ∉ seen := by
          intro hm
          exact hs (by simp [hm])
        have ihs := ih (t.url :: seen)
        rw [dedupClosed_cons_keep rest seen hc hs, List.filter_cons, if_pos hc,
          List.map_cons]
        constructor
        · rw [List.nodup_cons]
          refine ⟨?_, ihs.1⟩
          intro hm
          exact (ihs.2 t.url hm).2 (List.mem_cons_self _ _)
        · intro u hu
          rcases List.mem_cons.mp hu with rfl | hu
          · exact ⟨hou, hseen⟩
          · have h2 := ihs.2 u hu
            exact ⟨h2.1, fun hm => h2.2 (List.mem_cons_of_mem _ hm)⟩
    · have hc' : t.closed = false := Bool.eq_false_iff.mpr hc
      rw [dedupClosed_cons_open rest seen hc', List.filter_cons, if_neg hc]
      exact ih seen

/-- Every record of the second pass is closed. -/
theorem mergeSecondPass_closed (ct : List LiveTab) (st : List StorageTab) :
    ∀ t ∈ mergeSecondPass ct st, t.closed = true := by
  intro a ha
  rcases List.mem_filterMap.mp ha with ⟨b, _, hb⟩
  by_cases hcond : (b.closed || !((processedStoredIds ct st).contains b.id)) = true
  · rw [if_pos hcond] at hb
    cases hb
    rfl
  · rw [if_neg hcond] at hb
    cases hb

/-- The open part of the pre-dedup `result` list is the first pass. -/
theorem mergeResult_filter_open (ct : List LiveTab) (st : List StorageTab) :
    (mergeResult ct st).filter (fun t => !t.closed) = mapTabsToStored ct := by
  unfold mergeResult
  rw [List.filter_append]
  have h1 : (mapTabsToStored ct).filter (fun t => !t.closed) = mapTabsToStored ct :=
    List.filter_eq_self.mpr (by
      intro a ha
      simp [mapTabsToStored_closed ct a ha])
  have h2 : (mergeSecondPass ct st).filter (fun t => !t.closed) = [] := by
    refine List.filter_eq_nil_iff.mpr ?_
    intro a ha
    simp [mergeSecondPass_closed ct st a ha]
  rw [h1, h2, List.append_nil]

/-- The open part of the merge output is exactly the live tabs in live
order, mapped to open records with current Chrome data. -/
theorem mergeStoredTabs_opens (ct : List LiveTab) (st : List StorageTab) :
    (mergeStoredTabs ct st).filter (fun t => !t.closed) = mapTabsToStored ct := by
  unfold mergeStoredTabs
  rw [dedupClosed_filter_open, mergeResult_filter_open]

/-! ### Claim theorems -/

/-- C2: the tab merger keeps every open record (the live tabs, in live
order, with current data), keeps at most one closed record per
distinct URL, drops every closed record whose URL appears among the
open records, and on prior tabs `[(id 1, url A), (closed, url B)]`
merged with live tab `(id 5, url B)` yields exactly
`[open id 5 url B, closed url A]` in that order. -/
theorem mergeStoredTabs_dedup_spec (ct : List LiveTab) (st : List StorageTab) :
    (mergeStoredTabs ct st).filter (fun t => !t.closed) = mapTabsToStored ct ∧
    (((mergeStoredTabs ct st).filter (fun t => t.closed)).map
        (fun t => t.url)).Nodup ∧
    (∀ t ∈ mergeStoredTabs ct st, t.closed = true →
      ∀ t2 ∈ mergeStoredTabs ct st, t2.closed = false → t2.url ≠ t.url) ∧
    mergeStoredTabs [⟨5, 1, 1, "B", "tb"⟩]
        [⟨1, false, "ta", "A"⟩, ⟨-1, true, "tbold", "B"⟩] =
      [⟨5, false, "tb", "B"⟩, ⟨-1, true, "ta", "A"⟩] := by
  refine ⟨mergeStoredTabs_opens ct st, ?_, ?_, by decide⟩
  · have h := (dedupClosed_closed_urls (mergeOpenUrls ct st)
      (mergeResult ct st) []).1
    simpa only [mergeStoredTabs] using h
  · intro t ht hc t2 ht2 hc2 heq
    have hmem : t.url ∈ ((mergeStoredTabs ct st).filter
        (fun t => t.closed)).map (fun t => t.url) :=
      List.mem_map.mpr ⟨t, List.mem_filter.mpr ⟨ht, hc⟩, rfl⟩
    have hnot := ((dedupClosed_closed_urls (mergeOpenUrls ct st)
      (mergeResult ct st) []).2 t.url
      (by simpa only [mergeStoredTabs] using hmem)).1
    have ht2m : t2 ∈ mapTabsToStored ct := by
      have hmem2 : t2 ∈ (mergeStoredTabs ct st).filter (fun t => !t.closed) :=
        List.mem_filter.mpr ⟨ht2, by rw [hc2]; rfl⟩
      rwa [mergeStoredTabs_opens] at hmem2
    have hin : t2.url ∈ mergeOpenUrls ct st := by
      unfold mergeOpenUrls
      rw [mergeResult_filter_open]
      exact List.mem_map.mpr ⟨t2, ht2m, rfl⟩
    rw [heq] at hin
    exact hnot hin

/-- C2 witness: the merge-dedup theorem evaluated on the concrete
example of the claim. -/
theorem mergeStoredTabs_dedup_spec_witness :
    mergeStoredTabs [⟨5, 1, 1, "B", "tb"⟩]
        [⟨1, false, "ta", "A"⟩, ⟨-1, true, "tbold", "B"⟩] =
      [⟨5, false, "tb", "B"⟩, ⟨-1, true, "ta", "A"⟩] :=
  (mergeStoredTabs_dedup_spec [] []).2.2.2

/-- C1: full reconcile is NOT idempotent.  With live windows 10 (group
7 "P") and 20 (group 99 "D") and a stored closed window whose stale
group id 99 collides with the live id, the first reconcile leaves a
leftover duplicate "W" record under window 10 (the window-rebind step
deletes `windows[0]`, the candidate-array index, instead of the old
key 5), and the second reconcile moves that leftover away, so the two
outputs differ: after run one window 10 still holds group key 30,
after run two it does not. -/
theorem reconcileAllWindows_not_idempotent :
    reconcileAllWindows sessWpair (reconcileAllWindows sessWpair docWpair) ≠
        reconcileAllWindows sessWpair docWpair ∧
      (alGet (reconcileAllWindows sessWpair docWpair).windows 10).map
          (fun w => (alGet w.groups 30).isSome) = some true ∧
      (alGet (reconcileAllWindows sessWpair
            (reconcileAllWindows sessWpair docWpair)).windows 10).map
          (fun w => (alGet w.groups 30).isSome) = some false := by
  refine ⟨by decide, by decide, by decide⟩

/-- C3: window-sync rebinds the live window 10 to the stored window
whose group titles {"Work","Docs"} intersect the live titles
{"Work","Docs","Extra"} (score 2) instead of creating a fresh record —
but the old entry at key 5 is NOT deleted: the source deletes
`data.windows[oldWindowId]` where `oldWindowId` is the index of the
match in the filtered candidate array (here 0), not the storage key. -/
theorem syncWindow_rebinds_but_keeps_old_key :
    syncWindow sessWorkDocsExtra 10 docWorkDocs =
      ⟨[(5, ⟨5, true, none,
          [(6, ⟨96, true, "Work", none, 10, false, 0, []⟩),
           (7, ⟨97, true, "Docs", none, 10, false, 1, []⟩)]⟩),
        (10, ⟨10, false, none,
          [(6, ⟨96, true, "Work", none, 10, false, 0, []⟩),
           (7, ⟨97, true, "Docs", none, 10, false, 1, []⟩)]⟩)]⟩ := by
  decide

/-- C5: calling single-group sync with a null windowId does NOT strip
the stored group.  The source overwrites `stored.windowId` with -1 and
then deletes `data.windows[stored.windowId]?.groups[...]`, i.e. it
deletes from the nonexistent `windows[-1]`, so the document is
returned unchanged and the record of live group 7 is still present. -/
theorem syncTabGroup_null_window_no_strip :
    syncTabGroup sessGroupLive 1 7 none true docGroupInOne = docGroupInOne ∧
      (findStoredGroupById docGroupInOne 7).isSome = true := by
  refine ⟨by decide, by decide⟩

/-- C4 counterexample: in a document whose only "Work"-titled record
lies under window 1, the group Identity Resolver queried for window 2
returns that cross-window record (it is the loop's fallback match),
and syncing live group 7 "Work" in window 2 moves the window-1 record
(key 5) into window 2 instead of creating a fresh record there —
refuting "returns no match and a fresh record is created". -/
theorem findStoredGroupByTitle_cross_window_cex :
    findStoredGroupByTitle docWorkElsewhere "Work" (some 2) =
        some ⟨⟨99, true, "Work", none, 1, false, 0, []⟩, 1, 5⟩ ∧
      syncTabGroup sessWorkInTwo 1 7 (some 2) true docWorkElsewhere =
        ⟨[(1, ⟨1, true, none, []⟩),
          (2, ⟨2, false, none,
            [(5, ⟨7, false, "Work", none, 2, false, 0, []⟩)]⟩)]⟩ := by
  refine ⟨by decide, by decide⟩

/-- C4 (amended): the group Identity Resolver prefers a title-equal
record in the group's current window but falls back to the first
title-equal record in any window; it returns no match only when no
stored group anywhere carries the title, and whenever the current
window holds no title-equal record, any returned match lies in a
different window. -/
theorem findStoredGroupByTitle_prefers_then_falls_back
    (d : StorageData) (title : String) (pw : Int) :
    (findStoredGroupByTitle d title (some pw) = none ↔
      ∀ r ∈ allGroupRefs d, ¬ r.group.title = title) ∧
    (∀ r, findStoredGroupByTitle d title (some pw) = some r →
      r.group.title = title ∧ r ∈ allGroupRefs d) ∧
    ((∀ r ∈ allGroupRefs d, r.windowId = pw → ¬ r.group.title = title) →
      ∀ r, findStoredGroupByTitle d title (some pw) = some r →
        r.windowId ≠ pw) := by
  have hmem : ∀ r, findStoredGroupByTitle d title (some pw) = some r →
      r ∈ titleHits d title := by
    intro r hr
    unfold findStoredGroupByTitle at hr
    cases hfind : (titleHits d title).find? (fun r =>
        (some pw : Option Int) = some r.windowId && r.windowId ≠ 0) with
    | some r0 =>
      rw [hfind] at hr
      cases hr
      exact List.mem_of_find?_eq_some hfind
    | none =>
      rw [hfind] at hr
      cases hh : titleHits d title with
      | nil => rw [hh] at hr; cases hr
      | cons a l =>
        rw [hh] at hr
        cases hr
        exact List.mem_cons_self _ _
  have hfacts : ∀ r, findStoredGroupByTitle d title (some pw) = some r →
      r.group.title = title ∧ r ∈ allGroupRefs d := by
    intro r hr
    have h := List.mem_filter.mp (hmem r hr)
    exact ⟨by simpa using h.2, h.1⟩
  refine ⟨?_, hfacts, ?_⟩
  · constructor
    · intro hnone r hrm htitle
      have hin : r ∈ titleHits d title :=
        List.mem_filter.mpr ⟨hrm, by simpa using htitle⟩
      unfold findStoredGroupByTitle at hnone
      cases hfind : (titleHits d title).find? (fun r =>
          (some pw : Option Int) = some r.windowId && r.windowId ≠ 0) with
      | some r0 => rw [hfind] at hnone; cases hnone
      | none =>
        rw [hfind] at hnone
        cases hh : titleHits d title with
        | nil => rw [hh] at hin; cases hin
        | cons a l => rw [hh] at hnone; cases hnone
    · intro hall
      unfold findStoredGroupByTitle
      have hempty : titleHits d title = [] := by
        refine List.filter_eq_nil_iff.mpr ?_
        intro a ha
        simpa using hall a ha
      rw [hempty]
      rfl
  · intro hyp r hr hwid
    obtain ⟨htitle, hrm⟩ := hfacts r hr
    exact hyp r hrm hwid htitle

/-- C4 amended-claim witness: the fallback theorem applied to the
concrete cross-window document — window 2 holds no "Work" record, so
every match the resolver returns lies outside window 2. -/
theorem findStoredGroupByTitle_fallback_witness :
    (∀ r ∈ allGroupRefs docWorkElsewhere, r.windowId = 2 →
        ¬ r.group.title = "Work") ∧
      ∀ r, findStoredGroupByTitle docWorkElsewhere "Work" (some 2) = some r →
        r.windowId ≠ 2 :=
  ⟨by decide,
    (findStoredGroupByTitle_prefers_then_falls_back docWorkElsewhere "Work" 2).2.2
      (by decide)⟩

/-! ### Single-ownership lemmas for group moves (C6) -/

theorem setFirstPositionById_keys (gs : List (Int × StorageGroup)) (id pos : Int) :
    (setFirstPositionById gs id pos).map Prod.fst = gs.map Prod.fst := by
  induction gs with
  | nil => rfl
  | cons p t ih =>
    obtain ⟨k, g⟩ := p
    by_cases h : g.id = id
    · simp [setFirstPositionById, h]
    · simp [setFirstPositionById, h, ih]

theorem positionsFold_keys (cgs all : List LiveGroup) (gs : List (Int × StorageGroup)) :
    ((cgs.foldl (fun gs cg =>
        setFirstPositionById gs cg.id
          ((all.findIdx (fun g => g.id = cg.id) : Int))) gs).map Prod.fst) =
      gs.map Prod.fst := by
  induction cgs generalizing gs with
  | nil => rfl
  | cons c t ih => rw [List.foldl_cons, ih, setFirstPositionById_keys]

/-- The position-refresh pass changes no window entry's group-key
list. -/
theorem updateAllPositions_groupKeys (cgs : List LiveGroup) (wid : Int)
    (dd : StorageData) (w : Int) :
    (alGet (updateAllPositions cgs wid dd).windows w).map
        (fun win => win.groups.map Prod.fst) =
      (alGet dd.windows w).map (fun win => win.groups.map Prod.fst) := by
  unfold updateAllPositions
  rw [alGet_alModify]
  by_cases h : w = wid
  · rw [if_pos h, h]
    cases hv : alGet dd.windows wid with
    | none => rfl
    | some win =>
      simp only [Option.map_some', Option.some_inj]
      exact positionsFold_keys cgs cgs win.groups
  · rw [if_neg h]

/-- Presence of a group key at a window entry is unchanged by the
position-refresh pass. -/
theorem updateAllPositions_presence (cgs : List LiveGroup) (wid : Int)
    (dd : StorageData) (w k : Int) :
    (alGet (updateAllPositions cgs wid dd).windows w).map
        (fun win => (alGet win.groups k).isSome) =
      (alGet dd.windows w).map (fun win => (alGet win.groups k).isSome) := by
  have h := updateAllPositions_groupKeys cgs wid dd w
  cases h1 : alGet (updateAllPositions cgs wid dd).windows w with
  | none =>
    rw [h1] at h
    cases h2 : alGet dd.windows w with
    | none => rfl
    | some win2 => rw [h2] at h; cases h
  | some win1 =>
    rw [h1] at h
    cases h2 : alGet dd.windows w with
    | none => rw [h2] at h; cases h
    | some win2 =>
      rw [h2] at h
      simp only [Option.map_some', Option.some_inj] at h ⊢
      rw [Bool.eq_iff_iff, alGet_isSome_iff, alGet_isSome_iff, h]

/-- findStoredGroupById, read back: under the JS-object invariant that
keys are unique, a successful lookup names an actual entry: window key
`r.windowId` holds `r.group` under group key `r.groupKey`, and the
record carries the searched live id. -/
theorem findStoredGroupById_spec (d : StorageData) (g : Int) (r : StoredGroupRef)
    (hndw : (d.windows.map Prod.fst).Nodup)
    (hndg : ∀ k win, alGet d.windows k = some win →
      (win.groups.map Prod.fst).Nodup)
    (h : findStoredGroupById d g = some r) :
    ∃ win, alGet d.windows r.windowId = some win ∧
      alGet win.groups r.groupKey = some r.group ∧ r.group.id = g := by
  unfold findStoredGroupById at h
  by_cases hz : g = 0
  · rw [if_pos hz] at h; cases h
  · rw [if_neg hz] at h
    have hmem := List.mem_of_find?_eq_some h
    have hpred := List.find?_some h
    have hid : r.group.id = g := by simpa using hpred
    rcases List.mem_flatMap.mp hmem with ⟨kw, hkw, hr⟩
    rcases List.mem_map.mp hr with ⟨kg, hkg, hreq⟩
    have hwid : r.windowId = kw.1 := by rw [← hreq]
    have hgkey : r.groupKey = kg.1 := by rw [← hreq]
    have hgrp : r.group = kg.2 := by rw [← hreq]
    have hwin : alGet d.windows kw.1 = some kw.2 :=
      alGet_of_mem_nodup (by exact hkw) hndw
    refine ⟨kw.2, by rw [hwid]; exact hwin, ?_, hid⟩
    rw [hgkey, hgrp]
    exact alGet_of_mem_nodup (by exact hkg) (hndg kw.1 kw.2 hwin)

/-- Ownership facts of the write-back: assigning the updated group
data onto the found record and then moving it from `w1` to `w2`
leaves the key under `w2`, removes it from `w1`, and touches no other
window. -/
theorem assignMove_ownership (d : StorageData) (w1 k w2 : Int) (gd : StorageGroup)
    (win1 win2 : StorageWindow) (hne : w1 ≠ w2)
    (h1 : alGet d.windows w1 = some win1) (h2 : alGet d.windows w2 = some win2)
    (huniq : ∀ w win, alGet d.windows w = some win →
      (alGet win.groups k).isSome = true → w = w1) :
    (∃ rwin, alGet (moveStoredGroupToWindow
        ⟨alModify d.windows w1 (fun w => { w with groups := alSet w.groups k gd })⟩
        w1 k w2).windows w2 = some rwin ∧ (alGet rwin.groups k).isSome = true) ∧
    ∀ w win, alGet (moveStoredGroupToWindow
        ⟨alModify d.windows w1 (fun w => { w with groups := alSet w.groups k gd })⟩
        w1 k w2).windows w = some win → w ≠ w2 → alGet win.groups k = none := by
  have hd'1 : alGet (alModify d.windows w1
      (fun w => { w with groups := alSet w.groups k gd })) w1 =
      some { win1 with groups := alSet win1.groups k gd } := by
    rw [alGet_alModify, if_pos rfl, h1]
    rfl
  have hd'2 : alGet (alModify d.windows w1
      (fun w => { w with groups := alSet w.groups k gd })) w2 =
      some win2 := by
    rw [alGet_alModify, if_neg (fun hh => hne (Eq.symm hh)), h2]
  have hkey : alGet (alSet win1.groups k gd) k = some gd := by
    rw [alGet_alSet, if_pos rfl]
  have hmove : moveStoredGroupToWindow
      ⟨alModify d.windows w1 (fun w => { w with groups := alSet w.groups k gd })⟩
      w1 k w2 =
      ⟨alModify
        (alModify (alModify d.windows w1
          (fun w => { w with groups := alSet w.groups k gd })) w2
          (fun w => { w with groups := alSet w.groups k gd }))
        w1 (fun w => { w with groups := alErase w.groups k })⟩ := by
    unfold moveStoredGroupToWindow
    rw [hd'1, hd'2]
    simp only [hkey]
  rw [hmove]
  constructor
  · refine ⟨{ win2 with groups := alSet win2.groups k gd }, ?_, ?_⟩
    · rw [alGet_alModify, if_neg (fun hh => hne (Eq.symm hh)), alGet_alModify,
        if_pos rfl, hd'2]
      rfl
    · rw [alGet_alSet, if_pos rfl]
      rfl
  · intro w win hwin hwne
    by_cases hw1 : w = w1
    · subst hw1
      rw [alGet_alModify, if_pos rfl, alGet_alModify,
        if_neg (fun hh => hne hh), hd'1] at hwin
      cases hwin
      rw [alGet_alErase, if_pos rfl]
    · rw [alGet_alModify, if_neg hw1, alGet_alModify, if_neg hwne,
        alGet_alModify, if_neg hw1] at hwin
      cases hv : alGet win.groups k with
      | none => rfl
      | some gval =>
        exfalso
        exact hw1 (huniq w win hwin (by rw [hv]; rfl))

/-- The position-refresh pass preserves the ownership facts of a key:
present at `w2`, absent everywhere else. -/
theorem updateAllPositions_ownership (cgs : List LiveGroup) (wid : Int)
    (dd : StorageData) (k w2 : Int)
    (h : (∃ rwin, alGet dd.windows w2 = some rwin ∧
        (alGet rwin.groups k).isSome = true) ∧
      ∀ w win, alGet dd.windows w = some win → w ≠ w2 →
        alGet win.groups k = none) :
    (∃ rwin, alGet (updateAllPositions cgs wid dd).windows w2 = some rwin ∧
      (alGet rwin.groups k).isSome = true) ∧
    ∀ w win, alGet (updateAllPositions cgs wid dd).windows w = some win →
      w ≠ w2 → alGet win.groups k = none := by
  constructor
  · obtain ⟨rwin, hrwin, hrk⟩ := h.1
    have hp := updateAllPositions_presence cgs wid dd w2 k
    rw [hrwin] at hp
    cases hq : alGet (updateAllPositions cgs wid dd).windows w2 with
    | none => rw [hq] at hp; cases hp
    | some rwin2 =>
      rw [hq] at hp
      simp only [Option.map_some', Option.some_inj] at hp
      exact ⟨rwin2, rfl, by rw [hp, hrk]⟩
  · intro w win hwin hwne
    have hp := updateAllPositions_presence cgs wid dd w k
    rw [hwin] at hp
    cases hq : alGet dd.windows w with
    | none => rw [hq] at hp; cases hp
    | some win0 =>
      rw [hq] at hp
      simp only [Option.map_some', Option.some_inj] at hp
      have h0 := h.2 w win0 hq hwne
      cases hv : alGet win.groups k with
      | none => rfl
      | some gv =>
        exfalso
        rw [hv, h0] at hp
        cases hp

/-- C6: single ownership under moves.  When a live group `g` (now in
window `w2`) is synced and its stored record is found by id under a
different window `w1`, and the record's storage key occurred only
under `w1`, then afterwards the key exists under `w2`'s record and
under no other window: a move transfers the record, never duplicates
it. -/
theorem syncTabGroup_move_single_ownership
    (s : Session) (d : StorageData) (g w1 w2 : Int) (up : Bool)
    (grp : LiveGroup) (r : StoredGroupRef)
    (hndw : (d.windows.map Prod.fst).Nodup)
    (hndg : ∀ kw ∈ d.windows, (kw.2.groups.map Prod.fst).Nodup)
    (hg : s.getGroup g = some grp)
    (hw2 : (alGet d.windows w2).isSome = true)
    (hid : findStoredGroupById d g = some r)
    (hr1 : r.windowId = w1)
    (hne : w1 ≠ w2)
    (huniq : ∀ kw ∈ d.windows,
      (alGet kw.2.groups r.groupKey).isSome = true → kw.1 = w1) :
    (∃ rwin, alGet (syncTabGroup s 1 g (some w2) up d).windows w2 = some rwin ∧
      (alGet rwin.groups r.groupKey).isSome = true) ∧
    ∀ w win, alGet (syncTabGroup s 1 g (some w2) up d).windows w = some win →
      w ≠ w2 → alGet win.groups r.groupKey = none := by
  subst hr1
  have hndg' : ∀ k win, alGet d.windows k = some win →
      (win.groups.map Prod.fst).Nodup :=
    fun k win h => hndg (k, win) (alGet_some_mem h)
  have huniq' : ∀ w win, alGet d.windows w = some win →
      (alGet win.groups r.groupKey).isSome = true → w = r.windowId :=
    fun w win h hs => huniq (w, win) (alGet_some_mem h) hs
  obtain ⟨win1, hwin1, hgk1, hgid⟩ := findStoredGroupById_spec d g r hndw hndg' hid
  obtain ⟨win2, hwin2⟩ := Option.isSome_iff_exists.mp hw2
  have hnotnone : (alGet d.windows w2).isNone = false := by
    rw [hwin2]; rfl
  have hstep : syncTabGroup s 1 g (some w2) up d =
      (let tabs := s.tabsInGroup g
       let mergedTabs := mergeStoredTabs tabs r.group.tabs
       let chromeGroupsInWindow := s.groupsInWindow w2
       let indexInWindow := chromeGroupsInWindow.findIdx? (fun gg => gg.id = g)
       let groupPosition : Int :=
         match indexInWindow with
         | some i => (i : Int)
         | none => r.group.position
       let gd : StorageGroup :=
         { id := g, closed := false, title := jsOr grp.title "",
           color := grp.color, windowId := w2, collapsed := grp.collapsed,
           position := groupPosition, tabs := mergedTabs }
       let dm := moveStoredGroupToWindow
         ⟨alModify d.windows r.windowId
           (fun w => { w with groups := alSet w.groups r.groupKey gd })⟩
         r.windowId r.groupKey w2
       if up then updateAllPositions chromeGroupsInWindow w2 dm else dm) := by
    conv_lhs => rw [syncTabGroup]
    simp only [hg, hid, hnotnone, Bool.false_eq_true, if_false, if_pos hne,
      Option.map_some', Option.getD_some]
  rw [hstep]
  cases up with
  | false =>
    rw [if_neg Bool.false_ne_true]
    exact assignMove_ownership d r.windowId r.groupKey w2 _ win1 win2
      hne hwin1 hwin2 huniq'
  | true =>
    rw [if_pos rfl]
    exact updateAllPositions_ownership _ _ _ _ _
      (assignMove_ownership d r.windowId r.groupKey w2 _ win1 win2
        hne hwin1 hwin2 huniq')

/-- C6 witness: the single-ownership theorem applied to the concrete
move scenario — live group 7 moved from window 1 to window 2; its
record (key 40) ends up under window 2 only. -/
theorem syncTabGroup_move_single_ownership_witness :
    findStoredGroupById docBeforeMove 7 =
        some ⟨⟨7, false, "G", none, 1, false, 0, []⟩, 1, 40⟩ ∧
      (∃ rwin, alGet (syncTabGroup sessAfterMove 1 7 (some 2) true
          docBeforeMove).windows 2 = some rwin ∧
        (alGet rwin.groups 40).isSome = true) ∧
      ∀ w win, alGet (syncTabGroup sessAfterMove 1 7 (some 2) true
          docBeforeMove).windows w = some win → w ≠ 2 →
        alGet win.groups 40 = none :=
  ⟨by decide,
    syncTabGroup_move_single_ownership sessAfterMove docBeforeMove 7 1 2 true
      ⟨7, 2, "G", none, false⟩ ⟨⟨7, false, "G", none, 1, false, 0, []⟩, 1, 40⟩
      (by decide) (by decide) (by decide) (by decide) (by decide) rfl
      (by decide) (by decide)⟩

/-! ### Resurrection lemmas (C7) -/

theorem createTabsLoop_go (w : Int) (ts : List StorageTab) :
    ∀ acc : List Int × Session,
      ((ts.foldl (fun acc t =>
        let p := acc.2.createTab w t.url
        (acc.1 ++ [p.1.id], p.2)) acc).1).length = acc.1.length + ts.length := by
  induction ts with
  | nil => intro acc; simp
  | cons t rest ih =>
    intro acc
    rw [List.foldl_cons, ih]
    simp only [List.length_append, List.length_cons, List.length_nil]
    omega

/-- The tab-creation loop creates exactly one live tab per listed
record. -/
theorem createTabsLoop_length (s : Session) (w : Int) (ts : List StorageTab) :
    (createTabsLoop s w ts).1.length = ts.length := by
  unfold createTabsLoop
  rw [createTabsLoop_go]
  simp

/-- Identity rebinding never resurrects history: a closed record keeps
`closed = true` (and id -1) at its position, whatever ids were
created. -/
theorem rebindResurrectedTabs_closed (tabs : List StorageTab) :
    ∀ (created : List Int) (i : Nat) (t : StorageTab),
      tabs.get? i = some t → t.closed = true →
      ∃ t2, (rebindResurrectedTabs tabs created).get? i = some t2 ∧
        t2.closed = true ∧ t2.id = -1 := by
  induction tabs with
  | nil => intro created i t h _; cases h
  | cons a rest ih =>
    intro created i t hget hc
    cases i with
    | zero =>
      have ha : a = t := by
        have : some a = some t := hget
        cases this
        rfl
      subst ha
      have hb : ¬ ((!a.closed) = true) := by rw [hc]; exact Bool.false_ne_true
      refine ⟨{ a with id := -1, closed := true }, ?_, rfl, rfl⟩
      unfold rebindResurrectedTabs
      rw [if_neg hb]
      rfl
    | succ n =>
      have hget' : rest.get? n = some t := hget
      by_cases hb : (!a.closed) = true
      · cases created with
        | nil =>
          obtain ⟨t2, h1, h2, h3⟩ := ih [] n t hget' hc
          refine ⟨t2, ?_, h2, h3⟩
          unfold rebindResurrectedTabs
          rw [if_pos hb]
          exact h1
        | cons c cs =>
          obtain ⟨t2, h1, h2, h3⟩ := ih cs n t hget' hc
          refine ⟨t2, ?_, h2, h3⟩
          unfold rebindResurrectedTabs
          rw [if_pos hb]
          exact h1
      · obtain ⟨t2, h1, h2, h3⟩ := ih created n t hget' hc
        refine ⟨t2, ?_, h2, h3⟩
        unfold rebindResurrectedTabs
        rw [if_neg hb]
        exact h1

/-- C7: resurrection skips history.  When focusOrOpenGroup takes the
resurrect path (stored id unset or stale), it creates exactly one live
tab per non-closed TabRecord and none for the closed ones, the
identity rebinding leaves every closed record closed (id -1), and on
the concrete record `[open url x.c, closed url y.c]` exactly one live
tab is created and Y remains closed in the persisted document. -/
theorem focusOrOpenGroup_resurrect_skips_history
    (group : StorageGroup) (window : StorageWindow) (s : Session) (d : StorageData)
    (hres : group.id = 0 ∨ s.getGroup group.id = none) :
    (focusOrOpenGroup group window s d).created.length =
      (group.tabs.filter (fun t => !t.closed)).length ∧
    (∀ (i : Nat) (t : StorageTab), group.tabs.get? i = some t → t.closed = true →
      ∃ t2, (rebindResurrectedTabs group.tabs
          (focusOrOpenGroup group window s d).created).get? i = some t2 ∧
        t2.closed = true ∧ t2.id = -1) ∧
    focusOrOpenGroup resurrectGroupRec resurrectWindowRec sessEmpty resurrectDoc =
      ⟨102,
        { windows := [100],
          groups := [⟨102, 100, "T", none, false⟩],
          tabs := [⟨101, 102, 100, "x.c", ""⟩],
          nextId := 103, focused := some 100, active := some 101 },
        ⟨[(100, ⟨100, false, none,
          [(102, ⟨102, false, "T", none, 100, false, 0,
            [⟨101, false, "X", "x.c"⟩, ⟨-1, true, "Y", "y.c"⟩]⟩)]⟩)]⟩,
        [101]⟩ := by
  have hnone : (if group.id ≠ 0 then s.getGroup group.id else none) = none := by
    rcases hres with h | h
    · rw [if_neg (fun hh => hh h)]
    · by_cases hz : group.id ≠ 0
      · rw [if_pos hz]; exact h
      · rw [if_neg hz]
  have hcreated : (focusOrOpenGroup group window s d).created =
      (createTabsLoop (focusOrOpenWindow window s d).sess
        (focusOrOpenWindow window s d).windowId
        (group.tabs.filter (fun t => !t.closed))).1 := by
    unfold focusOrOpenGroup
    rw [hnone]
    simp only []
    cases hst : (match findStoredGroupById (focusOrOpenWindow window s d).doc
        group.id with
      | some r => some r
      | none => findStoredGroupByTitle (focusOrOpenWindow window s d).doc
          group.title none) with
    | some r => rfl
    | none => rfl
  refine ⟨?_, ?_, by decide⟩
  · rw [hcreated, createTabsLoop_length]
  · intro i t hget hc
    exact rebindResurrectedTabs_closed group.tabs
      (focusOrOpenGroup group window s d).created i t hget hc

/-- C7 witness: the resurrect-path hypothesis holds for the concrete
scenario (no live session object), and exactly one live tab is created
for the record `[open X, closed Y]`. -/
theorem focusOrOpenGroup_resurrect_witness :
    (resurrectGroupRec.id = 0 ∨
        sessEmpty.getGroup resurrectGroupRec.id = none) ∧
      (focusOrOpenGroup resurrectGroupRec resurrectWindowRec sessEmpty
          resurrectDoc).created.length =
        (resurrectGroupRec.tabs.filter (fun t => !t.closed)).length :=
  ⟨by decide,
    (focusOrOpenGroup_resurrect_skips_history resurrectGroupRec
      resurrectWindowRec sessEmpty resurrectDoc (by decide)).1⟩

/-! ### focusOrOpenTab facts (C8) -/

/-- C8 counterexample: stored tab record (stale id 77, url x.c) whose
group is live (id 12) and already holds a live tab 42 with the same
url.  focusOrOpenTab focuses tab 42 and returns its id without
creating a tab — but the document is returned unchanged: the stored
TabRecord still carries id 77, it is NOT rebound to 42 as the claim
states. -/
theorem focusOrOpenTab_no_rebind_cex :
    (focusOrOpenTab ⟨77, false, "X", "x.c"⟩ dupGroupRec dupWindowRec sessDupTab
        dupDoc).tabId = 42 ∧
      (focusOrOpenTab ⟨77, false, "X", "x.c"⟩ dupGroupRec dupWindowRec sessDupTab
        dupDoc).doc = dupDoc ∧
      (focusOrOpenTab ⟨77, false, "X", "x.c"⟩ dupGroupRec dupWindowRec sessDupTab
        dupDoc).sess.tabs = sessDupTab.tabs ∧
      (alGet dupDoc.windows 9).map (fun w =>
        (alGet w.groups 12).map (fun g => g.tabs.map (fun t => t.id))) =
        some (some [77]) := by
  refine ⟨by decide, by decide, by decide, by decide⟩

/-- C8 (amended): when the requested tab's live id is unset or stale
and the owning group is already live with a live tab of the same URL
in it, no live tab is created, that existing tab's id is returned (and
it is activated) — and the storage document is returned unchanged: the
stored TabRecord is not rebound in this branch (rebinding only happens
via group resurrection or the tab-creation path). -/
theorem focusOrOpenTab_existing_url_no_rebind
    (tab : StorageTab) (group : StorageGroup) (window : StorageWindow)
    (s : Session) (d : StorageData) (cg : LiveGroup) (e : LiveTab)
    (hstale : tab.id = 0 ∨ s.getTab tab.id = none)
    (hgz : group.id ≠ 0)
    (hlive : s.getGroup group.id = some cg)
    (hmatch : (s.tabs.filter
      (fun t => t.groupId = group.id && t.url = tab.url)).head? = some e) :
    (focusOrOpenTab tab group window s d).tabId = e.id ∧
    (focusOrOpenTab tab group window s d).doc = d ∧
    (focusOrOpenTab tab group window s d).sess.tabs = s.tabs := by
  have hcgid : cg.id = group.id := by simpa using List.find?_some hlive
  have hscrut : (if group.id ≠ 0 then s.getGroup group.id else none) = some cg := by
    rw [if_pos hgz]; exact hlive
  have htnone : (if tab.id ≠ 0 then s.getTab tab.id else none) = none := by
    rcases hstale with h | h
    · rw [if_neg (fun hh => hh h)]
    · by_cases hz : tab.id ≠ 0
      · rw [if_pos hz]; exact h
      · rw [if_neg hz]
  have hgid : (focusOrOpenGroup group window s d).groupId = cg.id := by
    unfold focusOrOpenGroup
    rw [hscrut]
  have hgdoc : (focusOrOpenGroup group window s d).doc = d := by
    unfold focusOrOpenGroup
    rw [hscrut]
  have hgtabs : (focusOrOpenGroup group window s d).sess.tabs = s.tabs := by
    unfold focusOrOpenGroup
    rw [hscrut]
    simp only []
    cases hh : (s.tabsInGroup cg.id).head? with
    | some t => rfl
    | none => rfl
  have hfilter : (focusOrOpenGroup group window s d).sess.tabs.filter
      (fun t => t.groupId = (focusOrOpenGroup group window s d).groupId &&
        t.url = tab.url) =
      s.tabs.filter (fun t => t.groupId = group.id && t.url = tab.url) := by
    rw [hgtabs, hgid, hcgid]
  unfold focusOrOpenTab
  rw [htnone]
  simp only []
  rw [hfilter, hmatch]
  exact ⟨rfl, hgdoc, hgtabs⟩

/-- C8 amended-claim witness: applied to the concrete scenario (stale
stored id 77, live duplicate tab 42 with the same url in live group
12): the returned id is 42 and the document is untouched. -/
theorem focusOrOpenTab_existing_url_witness :
    (focusOrOpenTab ⟨77, false, "X", "x.c"⟩ dupGroupRec dupWindowRec sessDupTab
        dupDoc).tabId = (⟨42, 12, 9, "x.c", "X"⟩ : LiveTab).id ∧
      (focusOrOpenTab ⟨77, false, "X", "x.c"⟩ dupGroupRec dupWindowRec sessDupTab
        dupDoc).doc = dupDoc ∧
      (focusOrOpenTab ⟨77, false, "X", "x.c"⟩ dupGroupRec dupWindowRec sessDupTab
        dupDoc).sess.tabs = sessDupTab.tabs :=
  focusOrOpenTab_existing_url_no_rebind ⟨77, false, "X", "x.c"⟩ dupGroupRec
    dupWindowRec sessDupTab dupDoc ⟨12, 9, "T", none, false⟩
    ⟨42, 12, 9, "x.c", "X"⟩ (by decide) (by decide) (by decide) (by decide)

/-! ### Event queue serialization (C9) -/

theorem fifoTrace_append (a b : List EvUnit) :
    fifoTrace (a ++ b) = fifoTrace a ++ fifoTrace b :=
  List.flatMap_append a b _

/-- One scheduler step preserves the invariant: the trace so far is
the FIFO trace of a processed prefix, and processed ++ queued ++
not-yet-fired arrivals is the full arrival sequence. -/
theorem qstep_inv (us : List EvUnit) (c : Bool) (st : QState)
    (h : ∃ processed, st.trace = fifoTrace processed ∧
      processed ++ st.queued ++ st.arrivals = us) :
    ∃ processed, (qstep c st).trace = fifoTrace processed ∧
      processed ++ (qstep c st).queued ++ (qstep c st).arrivals = us := by
  obtain ⟨processed, htr, hsum⟩ := h
  cases c with
  | true =>
    unfold qstep
    rw [if_pos rfl]
    cases harr : st.arrivals with
    | nil =>
      refine ⟨processed, htr, ?_⟩
      rw [← hsum, harr]
    | cons u rest =>
      simp only []
      split
      · refine ⟨processed, htr, ?_⟩
        show processed ++ (st.queued ++ [u]) ++ rest = us
        rw [← hsum, harr]
        simp [List.append_assoc]
      · refine ⟨processed, htr, ?_⟩
        show processed ++ (st.queued ++ [u]) ++ rest = us
        rw [← hsum, harr]
        simp [List.append_assoc]
  | false =>
    unfold qstep
    rw [if_neg Bool.false_ne_true]
    by_cases hp : st.processing = true
    · rw [if_pos hp]
      cases hq : st.queued with
      | nil =>
        refine ⟨processed, htr, ?_⟩
        rw [← hsum, hq]
      | cons u rest =>
        refine ⟨processed ++ [u], ?_, ?_⟩
        · show st.trace ++ [QEv.begun u.uid, QEv.done u.uid (!u.fails)] =
            fifoTrace (processed ++ [u])
          rw [htr, fifoTrace_append]
          rfl
        · show (processed ++ [u]) ++ rest ++ st.arrivals = us
          rw [← hsum, hq]
          simp [List.append_assoc]
    · rw [if_neg hp]
      exact ⟨processed, htr, hsum⟩

/-- The invariant holds along any whole run. -/
theorem qrun_inv (us : List EvUnit) (sched : List Bool) (st : QState)
    (h : ∃ processed, st.trace = fifoTrace processed ∧
      processed ++ st.queued ++ st.arrivals = us) :
    ∃ processed, (qrun sched st).trace = fifoTrace processed ∧
      processed ++ (qrun sched st).queued ++ (qrun sched st).arrivals = us := by
  induction sched generalizing st with
  | nil => exact h
  | cons c rest ih => exact ih (qstep c st) (qstep_inv us c st h)

/-- C9: FIFO serialization.  For every arrival sequence and every
interleaving of event firings with drain iterations, once all
arrivals have fired and the queue has drained, the execution trace is
exactly `begun u₁, done u₁, begun u₂, done u₂, …` in arrival order:
units run one at a time, each to completion before the next starts,
and a unit whose body throws (done with ok = false, error logged)
does not prevent the following units from running. -/
theorem processEventQueue_fifo (us : List EvUnit) (sched : List Bool)
    (hA : (qrun sched ⟨us, [], false, []⟩).arrivals = [])
    (hQ : (qrun sched ⟨us, [], false, []⟩).queued = []) :
    (qrun sched ⟨us, [], false, []⟩).trace = fifoTrace us := by
  obtain ⟨processed, htr, hsum⟩ :=
    qrun_inv us sched ⟨us, [], false, []⟩ ⟨[], rfl, rfl⟩
  rw [hA, hQ, List.append_nil, List.append_nil] at hsum
  rw [htr, hsum]

/-- C9 witness: three units (the second one throwing) fired under an
interleaved schedule; the trace is the full FIFO trace, with unit 3
still executed after unit 2's error. -/
theorem processEventQueue_fifo_witness :
    (qrun [true, false, true, false, true, false, false]
        ⟨[⟨1, false⟩, ⟨2, true⟩, ⟨3, false⟩], [], false, []⟩).arrivals = [] ∧
      (qrun [true, false, true, false, true, false, false]
        ⟨[⟨1, false⟩, ⟨2, true⟩, ⟨3, false⟩], [], false, []⟩).queued = [] ∧
      (qrun [true, false, true, false, true, false, false]
        ⟨[⟨1, false⟩, ⟨2, true⟩, ⟨3, false⟩], [], false, []⟩).trace =
        fifoTrace [⟨1, false⟩, ⟨2, true⟩, ⟨3, false⟩] :=
  ⟨by decide, by decide,
    processEventQueue_fifo [⟨1, false⟩, ⟨2, true⟩, ⟨3, false⟩]
      [true, false, true, false, true, false, false] (by decide) (by decide)⟩

/-- C10: first-run default.  When the store holds nothing under the
storage key, getStorage returns the empty document rather than failing
or returning absent, any persisted document is returned as-is, and the
UI-facing getStorage command succeeds with the empty document on first
run. -/
theorem getStorage_first_run_default :
    getStorage none = ⟨[]⟩ ∧
      (∀ d : StorageData, getStorage (some d) = d) ∧
      handleGetStorageMessage none = ⟨true, ⟨[]⟩⟩ :=
  ⟨rfl, fun _ => rfl, rfl⟩

end TabBox
